import Mathlib

/-!
Formal model of the client-side core of retube/ImageServer
(src/static/app.js): the traversal/ordering engine (shuffle, buildOrder,
safe modulo stepping) and the motion-gated playback step machine
(showByPos, loadImage, next/prev, start/stop, timer ticks).

Machine integers of JavaScript are modelled as Nat/Int; the in-place
array shuffle is modelled by a pure function on lists; the nondeterminism
of Math.random is modelled by an explicit choice function; the results of
the asynchronous fetches are modelled as explicit parameters of each
step (Option Bool: none = network error or non-OK HTTP status,
some b = a JSON body with load_next = b).
-/

namespace ImageServer

/-- The safe modulo of app.js, line 123:
pos = ((p % order.length) + order.length) % order.length.
The % of JavaScript on integers is truncated remainder (sign of the
dividend), which is Int.tmod. -/
def safeMod (p n : Int) : Int :=
  ((p.tmod n) + n).tmod n

/-- range(n) of app.js line 40: Array.from with length n, elements 0..n-1. -/
def range (n : Nat) : List Nat :=
  List.range n

/-- One swap of the in-place Fisher-Yates loop body of app.js line 46:
the destructuring assignment exchanging a[i] and a[j]. Out-of-range
indices leave the list unchanged (the loop only produces in-range ones). -/
def swapL (l : List Nat) (i j : Nat) : List Nat :=
  match l.get? i, l.get? j with
  | some x, some y => (l.set i y).set j x
  | _, _ => l

/-- The shuffle loop of app.js lines 44-47, counting i down from n to 1;
rand i models Math.floor(Math.random() * (i + 1)), reduced mod (i + 1)
so that any choice function is admissible and the actual range [0, i]
is always respected. -/
def shuffleAux (rand : Nat → Nat) : Nat → List Nat → List Nat
  | 0, a => a
  | Nat.succ n, a => shuffleAux rand n (swapL a (n + 1) (rand (n + 1) % (n + 2)))

/-- shuffle(a) of app.js lines 43-49: Fisher-Yates over the whole list,
loop from a.length - 1 down to 1. -/
def shuffle (rand : Nat → Nat) (a : List Nat) : List Nat :=
  shuffleAux rand (a.length - 1) a

/-- buildOrder(keepIndex) of app.js lines 51-61, returning the pair
(order, pos) that the original assigns to the two module-level variables:
order = shuffle(range(count)); pos = 0 when keepIndex is null, otherwise
pos = indexOf(keepIndex) when found (JavaScript indexOf returns -1 when
absent, and the source maps negative to 0). -/
def buildOrder (rand : Nat → Nat) (count : Nat) (keepIndex : Option Nat) :
    List Nat × Nat :=
  let newOrder := shuffle rand (range count)
  match keepIndex with
  | none => (newOrder, 0)
  | some k => (newOrder, if k ∈ newOrder then newOrder.indexOf k else 0)

/-! Permutation facts about the shuffle. -/

/-- Replacing position k by y and re-consing the old element is a
permutation of consing y. -/
theorem get_cons_set_perm (y : Nat) :
    ∀ (xs : List Nat) (k : Nat) (h : k < xs.length),
      List.Perm (xs.get ⟨k, h⟩ :: xs.set k y) (y :: xs) := by
  intro xs
  induction xs with
  | nil => intro k h; simp at h
  | cons a as ih =>
    intro k h
    cases k with
    | zero =>
      simpa using List.Perm.swap y a as
    | succ m =>
      have hm : m < as.length := by simpa using h
      have step1 : List.Perm (as.get ⟨m, hm⟩ :: a :: as.set m y)
          (a :: as.get ⟨m, hm⟩ :: as.set m y) :=
        List.Perm.swap a (as.get ⟨m, hm⟩) (as.set m y)
      have step2 : List.Perm (a :: as.get ⟨m, hm⟩ :: as.set m y) (a :: y :: as) :=
        List.Perm.cons a (ih m hm)
      have step3 : List.Perm (a :: y :: as) (y :: a :: as) :=
        List.Perm.swap y a as
      simpa using (step1.trans step2).trans step3

/-- A two-sided set that exchanges the elements at positions i and j is a
permutation of the original list. -/
theorem set_set_perm :
    ∀ (l : List Nat) (i j : Nat) (hi : i < l.length) (hj : j < l.length),
      List.Perm ((l.set i (l.get ⟨j, hj⟩)).set j (l.get ⟨i, hi⟩)) l := by
  intro l
  induction l with
  | nil => intro i j hi hj; simp at hi
  | cons x xs ih =>
    intro i j hi hj
    cases i with
    | zero =>
      cases j with
      | zero => simp
      | succ k =>
        have hk : k < xs.length := by simpa using hj
        simpa using get_cons_set_perm x xs k hk
    | succ m =>
      cases j with
      | zero =>
        have hm : m < xs.length := by simpa using hi
        simpa using get_cons_set_perm x xs m hm
      | succ k =>
        have hm : m < xs.length := by simpa using hi
        have hk : k < xs.length := by simpa using hj
        simpa using List.Perm.cons x (ih m k hm hk)

/-- swapL always permutes. -/
theorem swapL_perm (l : List Nat) (i j : Nat) : List.Perm (swapL l i j) l := by
  unfold swapL
  cases hx : l.get? i with
  | none =>
    cases hy : l.get? j <;> simp
  | some x =>
    cases hy : l.get? j with
    | none => simp
    | some y =>
      have hi : i < l.length := List.get?_eq_some.mp hx |>.1
      have hj : j < l.length := List.get?_eq_some.mp hy |>.1
      have hx2 : l.get ⟨i, hi⟩ = x := List.get?_eq_some.mp hx |>.2
      have hy2 : l.get ⟨j, hj⟩ = y := List.get?_eq_some.mp hy |>.2
      rw [← hx2, ← hy2]
      exact set_set_perm l i j hi hj

/-- The shuffle loop permutes. -/
theorem shuffleAux_perm (rand : Nat → Nat) :
    ∀ (n : Nat) (a : List Nat), List.Perm (shuffleAux rand n a) a := by
  intro n
  induction n with
  | zero => intro a; simp [shuffleAux]
  | succ m ih =>
    intro a
    exact (ih _).trans (swapL_perm a (m + 1) (rand (m + 1) % (m + 2)))

/-- shuffle permutes its input. -/
theorem shuffle_perm (rand : Nat → Nat) (a : List Nat) :
    List.Perm (shuffle rand a) a :=
  shuffleAux_perm rand (a.length - 1) a

/-- The order built from count entries is a permutation of range count,
whatever random choices occur and whatever keepIndex is passed. -/
theorem buildOrder_perm_range (rand : Nat → Nat) (count : Nat)
    (keepIndex : Option Nat) :
    List.Perm (buildOrder rand count keepIndex).1 (List.range count) := by
  cases keepIndex <;>
    simpa [buildOrder, range] using shuffle_perm rand (List.range count)

/-- C1: rebuilding with no keepIndex yields an order of length exactly
count in which every integer below count occurs exactly once and which
has no duplicates, and resets the cursor to 0 — for every count and
every realisation of Math.random. -/
theorem buildOrder_null_is_permutation (rand : Nat → Nat) (count : Nat) :
    (buildOrder rand count none).1.length = count
    ∧ (∀ k, k < count → (buildOrder rand count none).1.count k = 1)
    ∧ (buildOrder rand count none).1.Nodup
    ∧ (buildOrder rand count none).2 = 0 := by
  have hperm := buildOrder_perm_range rand count none
  have hnd : (buildOrder rand count none).1.Nodup :=
    hperm.symm.nodup (List.nodup_range count)
  refine ⟨?_, ?_, hnd, rfl⟩
  · simpa using hperm.length_eq
  · intro k hk
    have hmem : k ∈ (buildOrder rand count none).1 :=
      (hperm.mem_iff).mpr (List.mem_range.mpr hk)
    exact List.count_eq_one_of_mem hnd hmem

/-- C2: rebuilding with a keepIndex places the cursor on keepIndex when it
occurs in the new permutation (the entry at the resulting position is
keepIndex), and resets the cursor to 0 when it does not occur. -/
theorem buildOrder_keepIndex_position (rand : Nat → Nat) (count k : Nat) :
    (k ∈ (buildOrder rand count (some k)).1 →
      (buildOrder rand count (some k)).2
          = (buildOrder rand count (some k)).1.indexOf k
      ∧ (buildOrder rand count (some k)).1.get?
          (buildOrder rand count (some k)).2 = some k)
    ∧ (k ∉ (buildOrder rand count (some k)).1 →
        (buildOrder rand count (some k)).2 = 0) := by
  have h1 : (buildOrder rand count (some k)).1 = shuffle rand (range count) := by
    simp [buildOrder]
  constructor
  · intro hmem
    rw [h1] at hmem
    have h2 : (buildOrder rand count (some k)).2
        = (shuffle rand (range count)).indexOf k := by
      simp [buildOrder, hmem]
    refine ⟨by rw [h2, h1], ?_⟩
    rw [h1, h2]
    exact List.indexOf_get? hmem
  · intro hmem
    rw [h1] at hmem
    simp [buildOrder, hmem]

/-- Concrete instantiation of buildOrder_keepIndex_position. -/
theorem buildOrder_keepIndex_position_witness :
    (3 ∈ (buildOrder (fun _ => 0) 5 (some 3)).1
      ∧ (buildOrder (fun _ => 0) 5 (some 3)).1.get?
          (buildOrder (fun _ => 0) 5 (some 3)).2 = some 3)
    ∧ (7 ∉ (buildOrder (fun _ => 0) 2 (some 7)).1
      ∧ (buildOrder (fun _ => 0) 2 (some 7)).2 = 0) :=
  ⟨⟨by decide, ((buildOrder_keepIndex_position (fun _ => 0) 5 3).1 (by decide)).2⟩,
   ⟨by decide, (buildOrder_keepIndex_position (fun _ => 0) 2 7).2 (by decide)⟩⟩

/-- Concrete instantiation of buildOrder_null_is_permutation. -/
theorem buildOrder_null_is_permutation_witness :
    (buildOrder (fun i => i * 7) 4 none).1.length = 4
    ∧ (buildOrder (fun i => i * 7) 4 none).1.count 2 = 1
    ∧ (buildOrder (fun i => i * 7) 4 none).1.Nodup
    ∧ (buildOrder (fun i => i * 7) 4 none).2 = 0 :=
  ⟨(buildOrder_null_is_permutation (fun i => i * 7) 4).1,
   (buildOrder_null_is_permutation (fun i => i * 7) 4).2.1 2 (by decide),
   (buildOrder_null_is_permutation (fun i => i * 7) 4).2.2.1,
   (buildOrder_null_is_permutation (fun i => i * 7) 4).2.2.2⟩

/-! Arithmetic facts about the safe modulo. -/

/-- Truncated remainder by a positive divisor exceeds the negated divisor. -/
theorem neg_lt_tmod (p n : Int) (hn : 0 < n) : -n < p.tmod n := by
  match p, n with
  | Int.ofNat m, n =>
    have h0 : 0 ≤ (Int.ofNat m).tmod n := Int.tmod_nonneg n (Int.ofNat_nonneg m)
    omega
  | Int.negSucc m, Int.ofNat j =>
    have hj : 0 < j := by
      rw [Int.ofNat_eq_natCast] at hn
      exact_mod_cast hn
    have hr : (Int.negSucc m).tmod (Int.ofNat j)
        = -(Int.ofNat (Nat.succ m % j)) := rfl
    have h2 : Nat.succ m % j < j := Nat.mod_lt _ hj
    rw [hr, Int.ofNat_eq_natCast, Int.ofNat_eq_natCast]
    omega
  | Int.negSucc m, Int.negSucc j =>
    exact absurd hn (by exact not_lt.mpr (Int.negSucc_lt_zero j).le)

/-- The double-remainder idiom of app.js equals the Euclidean remainder
for a positive modulus. -/
theorem safeMod_eq_emod (p n : Int) (hn : 0 < n) : safeMod p n = p % n := by
  have ht1 : p.tmod n < n := Int.tmod_lt_of_pos p hn
  have ht2 : -n < p.tmod n := neg_lt_tmod p n hn
  have e1 : safeMod p n = (p.tmod n + n) % n := by
    unfold safeMod
    exact Int.tmod_eq_emod (by omega) (by omega)
  have e2 : (p.tmod n + n) % n = (p.tmod n) % n := by
    have h : p.tmod n + n = p.tmod n + n * 1 := by ring
    rw [h, Int.add_mul_emod_self_left]
  have e3 : (p.tmod n) % n = p % n := by
    conv_rhs => rw [← Int.tmod_add_tdiv p n]
    rw [Int.add_mul_emod_self_left]
  rw [e1, e2, e3]

/-- Safe modulo lands in [0, n). -/
theorem safeMod_nonneg (p n : Int) (hn : 0 < n) : 0 ≤ safeMod p n := by
  rw [safeMod_eq_emod p n hn]
  exact Int.emod_nonneg p (by omega)

/-- Safe modulo is below the modulus. -/
theorem safeMod_lt (p n : Int) (hn : 0 < n) : safeMod p n < n := by
  rw [safeMod_eq_emod p n hn]
  exact Int.emod_lt_of_pos p hn

/-- The resulting cursor is always an in-range list position. -/
theorem safeMod_toNat_lt (p : Int) (len : Nat) (h : 0 < len) :
    (safeMod p len).toNat < len := by
  have hn : (0 : Int) < (len : Int) := by exact_mod_cast h
  have := safeMod_lt p len hn
  have h0 := safeMod_nonneg p len hn
  omega

/-- Safe modulo of a natural argument is plain Nat remainder. -/
theorem safeMod_natCast (a len : Nat) (h : 0 < len) :
    (safeMod (a : Int) (len : Int)).toNat = a % len := by
  have hn : (0 : Int) < (len : Int) := by exact_mod_cast h
  rw [safeMod_eq_emod _ _ hn]
  rw [← Int.natCast_mod]
  exact Int.toNat_natCast _

/-! The client state machine of app.js. -/

/-- The module-level mutable state of app.js together with the parts of
the DOM it writes: count (line 5), order and pos (lines 8-9), timer
(line 10, modelled by whether the interval is set), INTERVAL_MS (line 4),
the status element text, and the currently displayed image index
(img.src together with idxEl, none before any image has been loaded). -/
@[ext]
structure Client where
  count : Nat
  order : List Nat
  pos : Nat
  status : String
  timerOn : Bool
  intervalMs : Nat
  displayed : Option Nat
deriving DecidableEq

/-- loadImage(p) of app.js lines 116-145: with an empty collection it
only reports the no-files status; otherwise it normalizes p by the safe
modulo, stores it in pos and displays the index order[pos]. The
img.onload metadata fetch touches only the date and filename labels,
which are outside this model. -/
def loadImage (c : Client) (p : Int) : Client :=
  if c.count = 0 ∨ c.order.length = 0 then
    { c with status := "no files" }
  else
    let newPos := (safeMod p (c.order.length : Int)).toNat
    { c with pos := newPos, displayed := c.order.get? newPos }

/-- showByPos(p) of app.js lines 94-114: first the /should_load_next
fetch. gate = none models a network error or a non-OK HTTP status (the
catch block logs and returns); some false models load_next = false
(status becomes auto paused, no load); some true models load_next = true
(status becomes playing, then loadImage(p) runs). -/
def showByPos (c : Client) (gate : Option Bool) (p : Int) : Client :=
  match gate with
  | none => c
  | some false => { c with status := "auto paused" }
  | some true => loadImage { c with status := "playing" } p

/-- stop() of app.js lines 170-177: clears the interval timer and shows
the paused status. -/
def stop (c : Client) : Client :=
  { c with timerOn := false, status := "paused" }

/-- start() of app.js lines 163-168: stop() then a fresh interval timer
and the playing status. -/
def start (c : Client) : Client :=
  { (stop c) with timerOn := true, status := "playing" }

/-- The external stimuli handled by app.js after initialization: a timer
tick (carrying the outcome of the gate fetch it performs), the next and
prev buttons (the left and right arrow keys run the same handlers), the
play and pause buttons, the space key, and the speed dropdown. -/
inductive Event where
  | tick (gate : Option Bool)
  | clickNext
  | clickPrev
  | clickPlay
  | clickPause
  | keySpace
  | setSpeed (ms : Nat)
deriving DecidableEq

/-- The manual stepping of next_btn/prev_btn (app.js lines 155-161),
generalized to an arbitrary delta: loadImage(pos + delta). The source
instantiates delta = 1 and delta = -1. -/
def stepBy (c : Client) (delta : Int) : Client :=
  loadImage c ((c.pos : Int) + delta)

/-- One step of the client in response to one stimulus. The first
argument is the server-side collection size at that moment: app.js never
requests the count after the initial page load (no handler fetches
/count and buildOrder has no caller outside initialization), so no
branch reads it. A tick only does anything when the interval timer is
set; next() is showByPos(pos + 1). -/
def clientStep (_serverCount : Nat) (c : Client) : Event → Client
  | Event.tick gate =>
      if c.timerOn then showByPos c gate ((c.pos : Int) + 1) else c
  | Event.clickNext => loadImage c ((c.pos : Int) + 1)
  | Event.clickPrev => loadImage c ((c.pos : Int) - 1)
  | Event.clickPlay => start c
  | Event.clickPause => stop c
  | Event.keySpace => if c.timerOn then stop c else start c
  | Event.setSpeed ms =>
      if ms ≠ 0 then
        let c2 := { c with intervalMs := ms }
        if c2.timerOn then start c2 else c2
      else c

/-- The order and cursor right after page load: buildOrder(null) runs
only when count > 0 (app.js line 198), otherwise the module-level
initial values [] and 0 remain. -/
def initOrderPos (rand : Nat → Nat) (initialCount : Nat) : List Nat × Nat :=
  if 0 < initialCount then buildOrder rand initialCount none else ([], 0)

/-- Initialization, app.js lines 196-200: setCount, setDateText, then
buildOrder(null) when count > 0, then showByPos(0) and start(). The
awaited gate fetch inside showByPos resolves only after the synchronous
start() call has run, so the model applies start first and the gate
continuation second. -/
def initClient (rand : Nat → Nat) (initialCount intervalMs : Nat)
    (gate : Option Bool) : Client :=
  showByPos
    (start
      { count := initialCount, order := (initOrderPos rand initialCount).1,
        pos := (initOrderPos rand initialCount).2, status := "",
        timerOn := false, intervalMs := intervalMs, displayed := none })
    gate 0

/-- A sample mid-playback state: five images, shuffled order, cursor on
position 2, so index 3 is on screen. -/
def sampleClient : Client :=
  { count := 5, order := [2, 0, 3, 1, 4], pos := 2, status := "playing",
    timerOn := true, intervalMs := 1000, displayed := some 3 }

example : (loadImage sampleClient (-1)).pos = 4 := by decide
example : (loadImage sampleClient 7).pos = 2 := by decide
example : (clientStep 5 sampleClient (Event.tick (some false))).pos = 2 := by decide

/-! Helper lemmas about the step functions. -/

/-- loadImage on a non-empty collection: the normalized cursor and the
displayed entry. -/
theorem loadImage_spec (c : Client) (p : Int) (h2 : c.count ≠ 0)
    (h3 : c.order ≠ []) :
    loadImage c p =
      { c with pos := (safeMod p (c.order.length : Int)).toNat,
               displayed :=
                 c.order.get? ((safeMod p (c.order.length : Int)).toNat) } := by
  have hlen : ¬c.order.length = 0 := by simpa using h3
  simp [loadImage, h2, hlen]

/-- loadImage at a non-negative target is plain Nat remainder. -/
theorem loadImage_natCast (c : Client) (a : Nat) (h2 : c.count ≠ 0)
    (h3 : c.order ≠ []) :
    loadImage c (a : Int) =
      { c with pos := a % c.order.length,
               displayed := c.order.get? (a % c.order.length) } := by
  have hpos : 0 < c.order.length := List.length_pos.mpr h3
  rw [loadImage_spec c _ h2 h3, safeMod_natCast a _ hpos]

/-- Stepping back by one is the same as stepping forward by length - 1. -/
theorem safeMod_sub_one (a len : Nat) (h : 0 < len) :
    (safeMod ((a : Int) - 1) (len : Int)).toNat = (a + (len - 1)) % len := by
  have hn : (0 : Int) < (len : Int) := by exact_mod_cast h
  rw [safeMod_eq_emod _ _ hn]
  have hx : (a : Int) - 1 = ((a + (len - 1) : Nat) : Int) + (len : Int) * (-1) := by
    omega
  rw [hx, Int.add_mul_emod_self_left, ← Int.natCast_mod, Int.toNat_natCast]

/-- loadImage never touches the order or the count. -/
theorem loadImage_order (c : Client) (p : Int) :
    (loadImage c p).order = c.order ∧ (loadImage c p).count = c.count := by
  unfold loadImage
  split <;> simp

/-- showByPos never touches the order or the count. -/
theorem showByPos_order (c : Client) (g : Option Bool) (p : Int) :
    (showByPos c g p).order = c.order ∧ (showByPos c g p).count = c.count := by
  cases g with
  | none => simp [showByPos]
  | some b =>
    cases b with
    | false => simp [showByPos]
    | true => simpa [showByPos] using loadImage_order { c with status := "playing" } p

/-- No event after initialization rebuilds the order or changes the
client-side count. -/
theorem step_preserves_order_count (sc : Nat) (c : Client) (e : Event) :
    (clientStep sc c e).order = c.order ∧ (clientStep sc c e).count = c.count := by
  cases e with
  | tick g =>
    by_cases ht : c.timerOn
    · simpa [clientStep, ht] using showByPos_order c g ((c.pos : Int) + 1)
    · simp [clientStep, ht]
  | clickNext => simpa [clientStep] using loadImage_order c ((c.pos : Int) + 1)
  | clickPrev => simpa [clientStep] using loadImage_order c ((c.pos : Int) - 1)
  | clickPlay => simp [clientStep, start, stop]
  | clickPause => simp [clientStep, stop]
  | keySpace => by_cases ht : c.timerOn <;> simp [clientStep, ht, start, stop]
  | setSpeed ms =>
    by_cases hm : ms = 0
    · simp [clientStep, hm]
    · by_cases ht : c.timerOn <;> simp [clientStep, hm, ht, start, stop]

/-- C4: a timer tick while the interval timer is set queries the gate
first. A denial turns the status into auto paused and changes nothing
else (cursor, displayed index and timer all kept, so later ticks keep
polling); a permission advances the cursor by one with wraparound,
keeps the playing status and the timer, and displays the entry at the
new cursor. -/
theorem tick_gate_protocol (sc : Nat) (c : Client) (h1 : c.timerOn = true)
    (h2 : c.count ≠ 0) (h3 : c.order ≠ []) :
    clientStep sc c (Event.tick (some false)) = { c with status := "auto paused" }
    ∧ (clientStep sc c (Event.tick (some true))).pos
        = (c.pos + 1) % c.order.length
    ∧ (clientStep sc c (Event.tick (some true))).status = "playing"
    ∧ (clientStep sc c (Event.tick (some true))).timerOn = c.timerOn
    ∧ (clientStep sc c (Event.tick (some true))).displayed
        = c.order.get? ((c.pos + 1) % c.order.length) := by
  have hstep : clientStep sc c (Event.tick (some true))
      = loadImage { c with status := "playing" } ((c.pos : Int) + 1) := by
    simp [clientStep, h1, showByPos]
  have hcast : ((c.pos : Int) + 1) = ((c.pos + 1 : Nat) : Int) := by push_cast; ring
  rw [hcast] at hstep
  rw [loadImage_natCast { c with status := "playing" } (c.pos + 1)
    (by simpa using h2) (by simpa using h3)] at hstep
  refine ⟨by simp [clientStep, h1, showByPos], ?_, ?_, ?_, ?_⟩ <;> simp [hstep, h1]

/-- Concrete instantiation of tick_gate_protocol. -/
theorem tick_gate_protocol_witness :
    clientStep 5 sampleClient (Event.tick (some false))
        = { sampleClient with status := "auto paused" }
    ∧ (clientStep 5 sampleClient (Event.tick (some true))).pos
        = (sampleClient.pos + 1) % sampleClient.order.length := by
  have h := tick_gate_protocol 5 sampleClient (by decide) (by decide) (by decide)
  exact ⟨h.1, h.2.1⟩

/-- Safe modulo absorbs an already-normalized first summand. -/
theorem safeMod_safeMod_add (n : Int) (hn : 0 < n) (x y : Int) :
    safeMod (safeMod x n + y) n = safeMod (x + y) n := by
  rw [safeMod_eq_emod _ _ hn, safeMod_eq_emod _ _ hn, safeMod_eq_emod _ _ hn]
  conv_lhs => rw [Int.add_emod]
  conv_rhs => rw [Int.add_emod]
  rw [Int.emod_emod_of_dvd x (dvd_refl n)]

/-- Two consecutive relative loads collapse into one. -/
theorem loadImage_loadImage (c : Client) (x y : Int) (h2 : c.count ≠ 0)
    (h3 : c.order ≠ []) :
    loadImage (loadImage c x) (((loadImage c x).pos : Int) + y)
      = loadImage c (x + y) := by
  have hlen : 0 < c.order.length := List.length_pos.mpr h3
  have hn : (0 : Int) < (c.order.length : Int) := by exact_mod_cast hlen
  have e1 := loadImage_spec c x h2 h3
  have hcast : (((loadImage c x).pos : Nat) : Int) = safeMod x (c.order.length : Int) := by
    rw [e1]
    exact Int.toNat_of_nonneg (safeMod_nonneg _ _ hn)
  have horder : (loadImage c x).order = c.order := (loadImage_order c x).1
  rw [loadImage_spec (loadImage c x) _ (by rw [e1]; simpa using h2)
      (by rw [e1]; simpa using h3), hcast, horder,
    safeMod_safeMod_add (c.order.length : Int) hn x y,
    loadImage_spec c (x + y) h2 h3, e1]

/-- C5: stepping is additive modulo the order length. Performing
stepBy a then stepBy b from any reachable state over a non-empty order
yields exactly the state of a single stepBy (a + b), and every step
normalizes the cursor into [0, length). -/
theorem step_composes_additively (c : Client) (a b : Int)
    (h2 : c.count ≠ 0) (h3 : c.order ≠ []) :
    stepBy (stepBy c a) b = stepBy c (a + b)
    ∧ (stepBy c a).pos < c.order.length := by
  have hlen : 0 < c.order.length := List.length_pos.mpr h3
  constructor
  · have h := loadImage_loadImage c ((c.pos : Int) + a) b h2 h3
    unfold stepBy
    rw [h]
    congr 1
    ring
  · rw [stepBy, loadImage_spec c _ h2 h3]
    exact safeMod_toNat_lt _ _ hlen

/-- Concrete instantiation of step_composes_additively. -/
theorem step_composes_additively_witness :
    stepBy (stepBy sampleClient 7) (-3) = stepBy sampleClient (7 + -3)
    ∧ (stepBy sampleClient 7).pos < sampleClient.order.length := by
  have h := step_composes_additively sampleClient 7 (-3) (by decide) (by decide)
  exact ⟨h.1, h.2⟩

/-- C6: the next and prev buttons (and the arrow keys, which run the
same handlers) advance immediately through loadImage without any gate
fetch — Event.clickNext and Event.clickPrev carry no gate outcome at
all — in every playback state, and they neither start nor cancel the
timer nor alter the status or interval (over a non-empty collection). -/
theorem manual_nav_bypasses_gate (sc : Nat) (c : Client)
    (h2 : c.count ≠ 0) (h3 : c.order ≠ []) :
    ((clientStep sc c Event.clickNext).timerOn = c.timerOn
      ∧ (clientStep sc c Event.clickNext).status = c.status
      ∧ (clientStep sc c Event.clickNext).intervalMs = c.intervalMs
      ∧ (clientStep sc c Event.clickNext).pos = (c.pos + 1) % c.order.length)
    ∧ ((clientStep sc c Event.clickPrev).timerOn = c.timerOn
      ∧ (clientStep sc c Event.clickPrev).status = c.status
      ∧ (clientStep sc c Event.clickPrev).intervalMs = c.intervalMs
      ∧ (clientStep sc c Event.clickPrev).pos
          = (c.pos + (c.order.length - 1)) % c.order.length) := by
  have hlen : 0 < c.order.length := List.length_pos.mpr h3
  have hnext : clientStep sc c Event.clickNext
      = loadImage c ((c.pos : Int) + 1) := by simp [clientStep]
  have hprev : clientStep sc c Event.clickPrev
      = loadImage c ((c.pos : Int) - 1) := by simp [clientStep]
  have hcast : ((c.pos : Int) + 1) = ((c.pos + 1 : Nat) : Int) := by push_cast; ring
  constructor
  · rw [hnext, hcast, loadImage_natCast c (c.pos + 1) h2 h3]
    simp
  · rw [hprev, loadImage_spec c _ h2 h3]
    refine ⟨by simp, by simp, by simp, ?_⟩
    simpa using safeMod_sub_one c.pos c.order.length hlen

/-- Concrete instantiation of manual_nav_bypasses_gate. -/
theorem manual_nav_bypasses_gate_witness :
    (clientStep 5 sampleClient Event.clickNext).timerOn = sampleClient.timerOn
    ∧ (clientStep 5 sampleClient Event.clickPrev).pos
        = (sampleClient.pos + (sampleClient.order.length - 1))
            % sampleClient.order.length := by
  have h := manual_nav_bypasses_gate 5 sampleClient (by decide) (by decide)
  exact ⟨h.1.1, h.2.2.2.2⟩

/-- C7: a failed gate fetch on a tick (network error or non-OK HTTP
status, both landing in the catch block) abandons the tick entirely:
the resulting state equals the old one — cursor, displayed index,
status and timer all kept — and no immediate retry happens in the
model of one tick; only the next scheduled tick queries again. -/
theorem gate_fetch_failure_abandons_tick (sc : Nat) (c : Client) :
    clientStep sc c (Event.tick none) = c := by
  by_cases ht : c.timerOn <;> simp [clientStep, ht, showByPos]

/-- A zero-size collection state: no images, timer running. -/
def emptyClient : Client :=
  { count := 0, order := [], pos := 0, status := "", timerOn := true,
    intervalMs := 10000, displayed := none }

/-- C8: with a zero-size collection every load or step operation only
reports the no-files status: the cursor is untouched, nothing is
displayed or requested, and the step is a total function (no error). -/
theorem empty_collection_noop (sc : Nat) (c : Client)
    (h : c.count = 0 ∨ c.order = []) :
    clientStep sc c Event.clickNext = { c with status := "no files" }
    ∧ clientStep sc c Event.clickPrev = { c with status := "no files" }
    ∧ (c.timerOn = true →
        clientStep sc c (Event.tick (some true)) = { c with status := "no files" }) := by
  have hcond : c.count = 0 ∨ c.order.length = 0 := by
    cases h with
    | inl h => exact Or.inl h
    | inr h => exact Or.inr (by simp [h])
  refine ⟨?_, ?_, fun ht => ?_⟩
  · show loadImage c ((c.pos : Int) + 1) = _
    unfold loadImage
    rw [if_pos hcond]
  · show loadImage c ((c.pos : Int) - 1) = _
    unfold loadImage
    rw [if_pos hcond]
  · have hred : clientStep sc c (Event.tick (some true))
        = loadImage { c with status := "playing" } ((c.pos : Int) + 1) := by
      simp [clientStep, ht, showByPos]
    rw [hred]
    unfold loadImage
    rw [if_pos (by simpa using hcond)]

/-- Concrete instantiation of empty_collection_noop. -/
theorem empty_collection_noop_witness :
    clientStep 0 emptyClient Event.clickNext = { emptyClient with status := "no files" }
    ∧ clientStep 0 emptyClient (Event.tick (some true))
        = { emptyClient with status := "no files" } := by
  have h := empty_collection_noop 0 emptyClient (Or.inl rfl)
  exact ⟨h.1, h.2.2 rfl⟩

/-- loadImage keeps the cursor in range. -/
theorem loadImage_invariant (c : Client) (p : Int)
    (h1 : c.order ≠ [] → c.pos < c.order.length) :
    (loadImage c p).order ≠ [] →
      (loadImage c p).pos < (loadImage c p).order.length := by
  intro hne
  by_cases hcond : c.count = 0 ∨ c.order.length = 0
  · have heq : loadImage c p = { c with status := "no files" } := by
      unfold loadImage
      rw [if_pos hcond]
    rw [heq] at hne ⊢
    simpa using h1 (by simpa using hne)
  · push_neg at hcond
    have h2 : c.count ≠ 0 := hcond.1
    have h3 : c.order ≠ [] := by
      intro hnil
      exact hcond.2 (by simp [hnil])
    rw [loadImage_spec c p h2 h3]
    simpa using safeMod_toNat_lt p c.order.length (List.length_pos.mpr h3)

/-- showByPos keeps the cursor in range. -/
theorem showByPos_invariant (c : Client) (g : Option Bool) (p : Int)
    (h1 : c.order ≠ [] → c.pos < c.order.length) :
    (showByPos c g p).order ≠ [] →
      (showByPos c g p).pos < (showByPos c g p).order.length := by
  cases g with
  | none => simpa [showByPos] using h1
  | some b =>
    cases b with
    | false => simpa [showByPos] using h1
    | true =>
      have h := loadImage_invariant { c with status := "playing" } p (by simpa using h1)
      simpa [showByPos] using h

/-- C9: whenever the order is non-empty the cursor is a valid position
into it, so order[pos] is always defined. The bound is preserved by
every event, holds for the pair produced by buildOrder with any
keepIndex, and is (re)established by loadImage at any integer target. -/
theorem cursor_always_in_range (sc : Nat) (c : Client) (e : Event)
    (rand : Nat → Nat) (count : Nat) (keep : Option Nat) (p : Int)
    (h1 : c.order ≠ [] → c.pos < c.order.length) :
    ((clientStep sc c e).order ≠ [] →
        (clientStep sc c e).pos < (clientStep sc c e).order.length)
    ∧ (0 < count →
        (buildOrder rand count keep).2 < (buildOrder rand count keep).1.length)
    ∧ (c.order ≠ [] → c.count ≠ 0 → (loadImage c p).pos < c.order.length) := by
  refine ⟨?_, ?_, fun h3 h2 => ?_⟩
  · cases e with
    | tick g =>
      by_cases ht : c.timerOn
      · simpa [clientStep, ht] using showByPos_invariant c g ((c.pos : Int) + 1) h1
      · simpa [clientStep, ht] using h1
    | clickNext => simpa [clientStep] using loadImage_invariant c ((c.pos : Int) + 1) h1
    | clickPrev => simpa [clientStep] using loadImage_invariant c ((c.pos : Int) - 1) h1
    | clickPlay => simpa [clientStep, start, stop] using h1
    | clickPause => simpa [clientStep, stop] using h1
    | keySpace => by_cases ht : c.timerOn <;> simpa [clientStep, ht, start, stop] using h1
    | setSpeed ms =>
      by_cases hm : ms = 0
      · simpa [clientStep, hm] using h1
      · by_cases ht : c.timerOn <;> simpa [clientStep, hm, ht, start, stop] using h1
  · intro hc
    have hperm := buildOrder_perm_range rand count keep
    have hlen : (buildOrder rand count keep).1.length = count := by
      simpa using hperm.length_eq
    cases keep with
    | none =>
      show (0 : Nat) < _
      rw [hlen]
      exact hc
    | some k =>
      by_cases hmem : k ∈ shuffle rand (range count)
      · have hidx : (buildOrder rand count (some k)).2
            = (shuffle rand (range count)).indexOf k := by
          simp [buildOrder, hmem]
        have hord : (buildOrder rand count (some k)).1 = shuffle rand (range count) := by
          simp [buildOrder]
        rw [hidx, hord]
        exact List.indexOf_lt_length.mpr hmem
      · have hzero : (buildOrder rand count (some k)).2 = 0 := by
          simp [buildOrder, hmem]
        rw [hzero, hlen]
        exact hc
  · rw [loadImage_spec c p h2 h3]
    simpa using safeMod_toNat_lt p c.order.length (List.length_pos.mpr h3)

/-- Concrete instantiation of cursor_always_in_range. -/
theorem cursor_always_in_range_witness :
    ((clientStep 5 sampleClient (Event.tick (some true))).order ≠ [] →
        (clientStep 5 sampleClient (Event.tick (some true))).pos
          < (clientStep 5 sampleClient (Event.tick (some true))).order.length)
    ∧ (0 < 5 → (buildOrder (fun _ => 1) 5 (some 3)).2
          < (buildOrder (fun _ => 1) 5 (some 3)).1.length)
    ∧ (sampleClient.order ≠ [] → sampleClient.count ≠ 0 →
        (loadImage sampleClient (-9)).pos < sampleClient.order.length) :=
  cursor_always_in_range 5 sampleClient (Event.tick (some true))
    (fun _ => 1) 5 (some 3) (-9) (by decide)

/-- An in-range lookup succeeds. -/
theorem get?_isSome_of_lt {l : List Nat} {i : Nat} (h : i < l.length) :
    (l.get? i).isSome = true := by
  rw [List.get?_eq_get h]
  rfl

/-- The initial order always has length equal to the initial count. -/
theorem initOrderPos_length (rand : Nat → Nat) (n : Nat) :
    (initOrderPos rand n).1.length = n := by
  unfold initOrderPos
  split
  · simpa using (buildOrder_perm_range rand n none).length_eq
  · simp
    omega

/-- C10: the very first display is gate-checked, not unconditional.
Initialization runs showByPos(0), whose gate fetch precedes any image
load: when the query fails or the gate denies at startup, nothing is
displayed; when the gate permits (and images exist) the entry at
position 0 is displayed; and after a denied startup the first permitted
tick does display an image. -/
theorem startup_display_gate_checked (rand : Nat → Nat) (n iv sc : Nat) :
    (initClient rand n iv none).displayed = none
    ∧ (initClient rand n iv (some false)).displayed = none
    ∧ (0 < n → ((initClient rand n iv (some true)).displayed).isSome = true)
    ∧ (0 < n →
        ((clientStep sc (initClient rand n iv (some false))
            (Event.tick (some true))).displayed).isSome = true) := by
  have hlen := initOrderPos_length rand n
  refine ⟨rfl, rfl, fun hn => ?_, fun hn => ?_⟩
  · have hne : (initOrderPos rand n).1 ≠ [] := by
      intro hnil
      rw [hnil] at hlen
      simp at hlen
      omega
    have hload : initClient rand n iv (some true)
        = loadImage
            { count := n, order := (initOrderPos rand n).1,
              pos := (initOrderPos rand n).2, status := "playing",
              timerOn := true, intervalMs := iv, displayed := none }
            ((0 : Nat) : Int) := by
      simp [initClient, showByPos, start, stop]
    rw [hload, loadImage_natCast _ 0 (by show n ≠ 0; omega) (by simpa using hne)]
    simp only []
    exact get?_isSome_of_lt (by simp [hlen]; omega)
  · have hne : (initOrderPos rand n).1 ≠ [] := by
      intro hnil
      rw [hnil] at hlen
      simp at hlen
      omega
    have hdenied : initClient rand n iv (some false)
        = { count := n, order := (initOrderPos rand n).1,
            pos := (initOrderPos rand n).2, status := "auto paused",
            timerOn := true, intervalMs := iv, displayed := none } := rfl
    rw [hdenied]
    have hred : clientStep sc
        { count := n, order := (initOrderPos rand n).1,
          pos := (initOrderPos rand n).2, status := "auto paused",
          timerOn := true, intervalMs := iv, displayed := none }
        (Event.tick (some true))
        = loadImage
            { count := n, order := (initOrderPos rand n).1,
              pos := (initOrderPos rand n).2, status := "playing",
              timerOn := true, intervalMs := iv, displayed := none }
            (((initOrderPos rand n).2 : Int) + 1) := by
      simp [clientStep, showByPos]
    rw [hred]
    have hcast : (((initOrderPos rand n).2 : Int) + 1)
        = (((initOrderPos rand n).2 + 1 : Nat) : Int) := by push_cast; ring
    rw [hcast, loadImage_natCast _ _ (by show n ≠ 0; omega) (by simpa using hne)]
    simp only []
    refine get?_isSome_of_lt (Nat.mod_lt _ ?_)
    simp [hlen]
    omega

/-- Concrete instantiation of startup_display_gate_checked. -/
theorem startup_display_gate_checked_witness :
    (initClient (fun _ => 0) 3 1000 none).displayed = none
    ∧ ((initClient (fun _ => 0) 3 1000 (some true)).displayed).isSome = true := by
  have h := startup_display_gate_checked (fun _ => 0) 3 1000 7
  exact ⟨h.1, h.2.2.1 (by decide)⟩

/-- C3 (amended): the client never polls the collection size after page
load and never rebuilds the traversal order: every post-initialization
event leaves both order and the client-side count unchanged, whatever
the server-side collection size is at that moment. buildOrder is only
invoked during initialization, with a null keepIndex. -/
theorem no_count_polling_no_rebuild (sc : Nat) (c : Client) (e : Event) :
    (clientStep sc c e).order = c.order ∧ (clientStep sc c e).count = c.count :=
  step_preserves_order_count sc c e

/-- C3 counterexample: five images client-side, server grown to eight,
playback at cursor 2 over order [2,0,3,1,4] with index 3 on screen. The
claim predicts a rebuild to an order of length eight still showing
index 3; the code instead keeps the five-element order and the next
permitted tick advances the display to order[3] = 1. -/
theorem count_growth_not_reconciled :
    (clientStep 8 sampleClient (Event.tick (some true))).order.length = 5
    ∧ (clientStep 8 sampleClient (Event.tick (some true))).order.length ≠ 8
    ∧ (clientStep 8 sampleClient (Event.tick (some true))).displayed = some 1 := by
  decide

end ImageServer
